import Mathlib

/-!
# Verification of the sbpy gas coma module (`sbpy/activity/gas.py`)

Shallow embedding of the `GasComa` abstract base class and the `Haser` coma
model, together with the aperture integration engine
`GasComa._integrate_column_density`.

Modelling conventions:
* astropy `Quantity` values are modelled by their magnitude (a real number,
  assumed expressed in a consistent SI-compatible system) together with a
  physical dimension, a triple of integer exponents (length, time, amount).
  `Unit.is_equivalent` is dimensional convertibility, i.e. equality of the
  exponent triples.
* `scipy` is an external library that may be absent.  It is modelled as an
  optional capability `Option SciPy`; `SciPy.iti0k0` returns the pair of
  integrals of the modified Bessel functions I0 and K0 (the code uses
  component `[1]`, the K0 integral) and `SciPy.k1` is the modified Bessel
  function of the second kind, order 1.  The special functions themselves are
  opaque to the model, exactly as they are to the Python code.
* Python exceptions are modelled with `Except PyError`.  A Python function
  that can return `None` as a value (soft degrade) is modelled with `Option`
  inside the success type.  Failed `assert` statements raise
  `PyError.assertionError`.  Arithmetic on `None` (e.g. `np.pi / 2 - None`)
  raises `PyError.typeError`, and so does calling the non-callable
  `NotImplemented` singleton.
* Real division is Lean's total division (`x / 0 = 0`); places where the
  Python code divides by zero are noted at the corresponding theorems.
* `numpy.inf` does not arise on the paths proved below; branch conditions are
  evaluated exactly as in the source.
-/

open Real MeasureTheory intervalIntegral

/-- Physical dimension of a quantity: integer exponents of the base
dimensions (length, time, amount of substance). -/
structure Dim where
  length : ℤ
  time : ℤ
  amount : ℤ
deriving DecidableEq, Repr

/-- Dimension of `u.s ** -1` (inverse time). -/
def Dim.perTime : Dim := ⟨0, -1, 0⟩

/-- Dimension of `u.mol / u.s` (amount of substance per time). -/
def Dim.molPerTime : Dim := ⟨0, -1, 1⟩

/-- Dimension of `u.m / u.s` (length per time). -/
def Dim.speed : Dim := ⟨1, -1, 0⟩

/-- Dimension of `u.m` (length). -/
def Dim.lengthDim : Dim := ⟨1, 0, 0⟩

/-- An astropy `Quantity`: magnitude (in SI-compatible units) plus
dimension. -/
structure Quantity where
  value : ℝ
  dim : Dim

/-- Python exceptions raised by the embedded code. -/
inductive PyError where
  | assertionError
  | typeError
  | nameError
deriving DecidableEq, Repr

/-- The special-function capability provided by `scipy.special`:
`iti0k0 x` is the pair `(∫_0^x I0, ∫_0^x K0)` and `k1` is the modified
Bessel function K1.  The functions are opaque, as they are to the source. -/
structure SciPy where
  iti0k0 : ℝ → ℝ × ℝ
  k1 : ℝ → ℝ

/-- A concrete stand-in special-function table, used to instantiate
universally quantified statements at a specific library. -/
def trivSciPy : SciPy := ⟨fun x => (x, x), fun x => x⟩

/-- State of a constructed `GasComa` instance (`GasComa.__init__` stores
`self.Q` and `self.v`). -/
structure GasComaState where
  Q : ℝ
  v : ℝ

/-- `GasComa.__init__(Q, v)`: asserts that `Q` is dimensionally equivalent
to `u.s**-1` or `u.mol/u.s` and `v` to `u.m/u.s`; a failed assert raises
`AssertionError`. -/
def GasComa.init (Q v : Quantity) : Except PyError GasComaState :=
  if Q.dim = Dim.perTime ∨ Q.dim = Dim.molPerTime then
    if v.dim = Dim.speed then
      .ok ⟨Q.value, v.value⟩
    else
      .error .assertionError
  else
    .error .assertionError

/-- State of a constructed `Haser` instance: `Q`, `v`, the mandatory parent
lengthscale and the optional daughter lengthscale.  `parent` is a plain real
because `Haser.__init__` asserts it is a `Quantity` (never `None`), so the
defensive `self.parent is None` tests in the source are unreachable. -/
structure HaserState where
  Q : ℝ
  v : ℝ
  parent : ℝ
  daughter : Option ℝ

/-- `Haser.__init__(Q, v, parent, daughter=None)`: runs `GasComa.__init__`
first, then asserts that `parent` (and `daughter`, when supplied) carries a
length dimension.  No other validation is performed. -/
def Haser.init (Q v parent : Quantity) (daughter : Option Quantity) :
    Except PyError HaserState :=
  match GasComa.init Q v with
  | .error e => .error e
  | .ok base =>
    if parent.dim = Dim.lengthDim then
      match daughter with
      | none => .ok ⟨base.Q, base.v, parent.value, none⟩
      | some dq =>
        if dq.dim = Dim.lengthDim then
          .ok ⟨base.Q, base.v, parent.value, some dq.value⟩
        else
          .error .assertionError
    else
      .error .assertionError

/-- `Haser.volume_density(r)`:
`n = Q / 4 / pi / r**2 / v`, then multiplied by `exp(-r/parent)` when
`daughter is None or daughter == 0`, otherwise by
`daughter / (parent - daughter) * (exp(-r/parent) - exp(-r/daughter))`. -/
noncomputable def Haser.volume_density (m : HaserState) (r : ℝ) : ℝ :=
  let n := m.Q / 4 / Real.pi / r ^ 2 / m.v
  if m.daughter = none ∨ m.daughter = some 0 then
    n * Real.exp (-r / m.parent)
  else
    let d := m.daughter.getD 0
    n * (d / (m.parent - d) * (Real.exp (-r / m.parent) - Real.exp (-r / d)))

/-- Claim C1: for every Haser model and positive `r`, `volume_density r` is
`Q/(4 pi r^2 v) * exp(-r/parent)` when the daughter lengthscale is absent or
exactly zero, and `Q/(4 pi r^2 v) * (daughter/(parent-daughter)) *
(exp(-r/parent) - exp(-r/daughter))` when a nonzero daughter lengthscale is
present (precondition `parent ≠ daughter`). -/
theorem haser_volume_density_spec (m : HaserState) (r : ℝ) (hr : 0 < r) :
    (m.daughter = none ∨ m.daughter = some 0 →
      Haser.volume_density m r =
        m.Q / (4 * Real.pi * r ^ 2 * m.v) * Real.exp (-r / m.parent)) ∧
    (∀ d : ℝ, m.daughter = some d → d ≠ 0 → m.parent ≠ d →
      Haser.volume_density m r =
        m.Q / (4 * Real.pi * r ^ 2 * m.v) *
          (d / (m.parent - d) *
            (Real.exp (-r / m.parent) - Real.exp (-r / d)))) := by
  constructor
  · intro hd
    unfold Haser.volume_density
    rw [if_pos hd]
    ring
  · intro d hd hdz hpd
    unfold Haser.volume_density
    rw [if_neg (by simp [hd, hdz])]
    simp only [hd, Option.getD_some]
    ring

/-- Witness for C1 at `Q = 1`, `v = 1`, `parent = 2`, no daughter, `r = 1`. -/
theorem haser_volume_density_spec_inst :
    Haser.volume_density ⟨1, 1, 2, none⟩ 1 =
      (1 : ℝ) / (4 * Real.pi * 1 ^ 2 * 1) * Real.exp (-1 / 2) :=
  (haser_volume_density_spec ⟨1, 1, 2, none⟩ 1 (by norm_num)).1 (Or.inl rfl)

/-- `Haser._iK0(x)`: with scipy present, `iti0k0(x)[1]`, the integral of the
modified Bessel function K0; with scipy absent, emits an `AstropyWarning`
(not modelled) and returns `None`. -/
def Haser.iK0 (scipy : Option SciPy) (x : ℝ) : Option ℝ :=
  scipy.map fun s => (s.iti0k0 x).2

/-- `Haser._K1(x)`: with scipy present, `k1(x)`; with scipy absent, emits an
`AstropyWarning` (not modelled) and returns `None`. -/
def Haser.K1fn (scipy : Option SciPy) (x : ℝ) : Option ℝ :=
  scipy.map fun s => s.k1 x

/-- `Haser.column_density(rho, eph)`.  `rho_as_length` is the external
geometry collaborator; the embedding takes `rho` already converted to a
linear distance, so `r = rho`.  `x = r / parent` (the mandatory `parent` is
never `None`), `y = r / daughter` or `0` when the daughter is absent, and
the prefactor is `Q / 2 / pi / r / v`.  The branch structure follows the
source; in each branch the result of `_iK0` enters an arithmetic expression,
so a `None` result (scipy absent) raises a `TypeError`. -/
noncomputable def Haser.column_density (scipy : Option SciPy) (m : HaserState)
    (rho : ℝ) : Except PyError ℝ :=
  let r := rho
  let x := r / m.parent
  let y := m.daughter.elim 0 fun d => r / d
  let sigma := m.Q / 2 / Real.pi / r / m.v
  if m.daughter = none ∨ m.daughter = some 0 then
    match Haser.iK0 scipy x with
    | none => .error .typeError
    | some ik => .ok (sigma * (Real.pi / 2 - ik))
  else if m.parent = 0 then
    match Haser.iK0 scipy y with
    | none => .error .typeError
    | some ik => .ok (sigma * (Real.pi / 2 - ik))
  else
    let d := m.daughter.getD 0
    if m.parent < d then
      match Haser.iK0 scipy x, Haser.iK0 scipy y with
      | some ikx, some iky =>
        .ok (sigma * (m.parent / (d - m.parent) * (ikx - iky)))
      | _, _ => .error .typeError
    else
      match Haser.iK0 scipy y, Haser.iK0 scipy x with
      | some iky, some ikx =>
        .ok (sigma * (d / (m.parent - d) * (iky - ikx)))
      | _, _ => .error .typeError

/-- Value of `Haser.column_density` when scipy is available; used as the
integrand handed to the integration engine. -/
noncomputable def Haser.column_density_val (s : SciPy) (m : HaserState)
    (rho : ℝ) : ℝ :=
  let r := rho
  let x := r / m.parent
  let y := m.daughter.elim 0 fun d => r / d
  let sigma := m.Q / 2 / Real.pi / r / m.v
  if m.daughter = none ∨ m.daughter = some 0 then
    sigma * (Real.pi / 2 - (s.iti0k0 x).2)
  else if m.parent = 0 then
    sigma * (Real.pi / 2 - (s.iti0k0 y).2)
  else
    let d := m.daughter.getD 0
    if m.parent < d then
      sigma * (m.parent / (d - m.parent) * ((s.iti0k0 x).2 - (s.iti0k0 y).2))
    else
      sigma * (d / (m.parent - d) * ((s.iti0k0 y).2 - (s.iti0k0 x).2))

lemma Haser.column_density_some (s : SciPy) (m : HaserState) (rho : ℝ) :
    Haser.column_density (some s) m rho =
      .ok (Haser.column_density_val s m rho) := by
  unfold Haser.column_density Haser.column_density_val Haser.iK0
  simp only [Option.map_some]
  split
  · rfl
  · split
    · rfl
    · split <;> rfl

/-- Claim C2: with scipy available, `column_density rho` is
`Q/(2 pi r v) * g` with `r = rho`, `x = r/parent`, `y = r/daughter`, where
`g = pi/2 - I(x)` when the daughter is absent or zero, `g = pi/2 - I(y)`
when (the daughter is nonzero and) the parent is zero — the "absent" parent
of the claim is unreachable because `Haser.__init__` requires a parent
`Quantity` — `g = parent/(daughter-parent) * (I(x) - I(y))` when both are
nonzero with `parent < daughter`, and
`g = daughter/(parent-daughter) * (I(y) - I(x))` when both are nonzero with
`parent ≥ daughter`, `I` being the integral of the Bessel function K0. -/
theorem haser_column_density_spec (s : SciPy) (m : HaserState) (rho : ℝ)
    (hrho : 0 < rho) :
    (m.daughter = none ∨ m.daughter = some 0 →
      Haser.column_density (some s) m rho =
        .ok (m.Q / (2 * Real.pi * rho * m.v) *
          (Real.pi / 2 - (s.iti0k0 (rho / m.parent)).2))) ∧
    (∀ d : ℝ, m.daughter = some d → d ≠ 0 → m.parent = 0 →
      Haser.column_density (some s) m rho =
        .ok (m.Q / (2 * Real.pi * rho * m.v) *
          (Real.pi / 2 - (s.iti0k0 (rho / d)).2))) ∧
    (∀ d : ℝ, m.daughter = some d → d ≠ 0 → m.parent ≠ 0 → m.parent < d →
      Haser.column_density (some s) m rho =
        .ok (m.Q / (2 * Real.pi * rho * m.v) *
          (m.parent / (d - m.parent) *
            ((s.iti0k0 (rho / m.parent)).2 - (s.iti0k0 (rho / d)).2)))) ∧
    (∀ d : ℝ, m.daughter = some d → d ≠ 0 → m.parent ≠ 0 → ¬m.parent < d →
      Haser.column_density (some s) m rho =
        .ok (m.Q / (2 * Real.pi * rho * m.v) *
          (d / (m.parent - d) *
            ((s.iti0k0 (rho / d)).2 - (s.iti0k0 (rho / m.parent)).2)))) := by
  rw [Haser.column_density_some]
  refine ⟨fun hd => ?_, fun d hd hdz hp => ?_, fun d hd hdz hp hlt => ?_,
    fun d hd hdz hp hge => ?_⟩
  · unfold Haser.column_density_val
    rw [if_pos hd]
    congr 1
    ring
  · unfold Haser.column_density_val
    rw [if_neg (by simp [hd, hdz]), if_pos hp]
    simp only [hd, Option.elim_some]
    congr 1
    ring
  · unfold Haser.column_density_val
    rw [if_neg (by simp [hd, hdz]), if_neg hp]
    simp only [hd, Option.getD_some, Option.elim_some]
    rw [if_pos hlt]
    congr 1
    ring
  · unfold Haser.column_density_val
    rw [if_neg (by simp [hd, hdz]), if_neg hp]
    simp only [hd, Option.getD_some, Option.elim_some]
    rw [if_neg hge]
    congr 1
    ring

/-- Witness for C2 at `Q = v = 1`, `parent = 2`, no daughter, `rho = 1`. -/
theorem haser_column_density_spec_inst :
    Haser.column_density (some trivSciPy) ⟨1, 1, 2, none⟩ 1 =
      .ok ((1 : ℝ) / (2 * Real.pi * 1 * 1) *
        (Real.pi / 2 - (trivSciPy.iti0k0 (1 / 2)).2)) :=
  (haser_column_density_spec trivSciPy ⟨1, 1, 2, none⟩ 1 (by norm_num)).1
    (Or.inl rfl)

/-- Aperture shapes consumed by the coma models (the geometry collaborator
`sbpy.activity.core`).  `circular` carries `radius`, `annular` carries
`shape = (inner, outer)`, `rectangular` carries `shape = (s0, s1)` (the two
side lengths), and `gaussian` — modelled from the spec, `core.py` being
outside the sources — carries its radially symmetric weighting function
`w(rho)` (the value `aper(rho)` of the Python object).  `other` stands for
any further `Aperture` subclass, which the open Python class hierarchy
admits.  All apertures are taken in linear units (`as_length` already
applied). -/
inductive Aperture where
  | circular (radius : ℝ)
  | annular (inner outer : ℝ)
  | rectangular (s0 s1 : ℝ)
  | gaussian (w : ℝ → ℝ)
  | other

/-- The argument of `total_number`: either an `Aperture` instance or a bare
scalar radius (a `Quantity`, already converted to length). -/
inductive ApertureArg where
  | shaped (a : Aperture)
  | radius (rho : ℝ)

/-- `GasComa._integrate_column_density(aper)`.  The `scipy.integrate` import
is attempted first: when scipy is absent the method warns and returns `None`
(soft degrade) before any dispatch.  `quad`/`dblquad` adaptive quadrature is
modelled by the exact integral.  Dispatch: circular — `2 pi ∫_0^R rho
sigma(rho)`; annular — `2 pi ∫_{r1}^{r2} rho sigma(rho)`; rectangular — two
polar double integrals, the first with `theta` up to `arctan(s0/s1)` and
radial bound `s0 / 2 / cos theta`, the second with `theta` up to
`arctan(s1/s0)` and radial bound `s1 / 2 / cos theta`, summed and multiplied
by 4; gaussian — `2 pi ∫_0^∞ rho w(rho) sigma(rho)`.  Any other aperture
falls through every `isinstance` test and `return N` raises `NameError`
(`N` unbound). -/
noncomputable def GasComa.integrate_column_density (scipy : Option SciPy)
    (cd : ℝ → ℝ) (aper : Aperture) : Except PyError (Option ℝ) :=
  match scipy with
  | none => .ok none
  | some _ =>
    match aper with
    | .circular R =>
      .ok (some ((∫ ρ in (0:ℝ)..R, ρ * cd ρ) * (2 * Real.pi)))
    | .annular r1 r2 =>
      .ok (some ((∫ ρ in r1..r2, ρ * cd ρ) * (2 * Real.pi)))
    | .rectangular s0 s1 =>
      .ok (some (4 *
        ((∫ θ in (0:ℝ)..Real.arctan (s0 / s1),
            ∫ ρ in (0:ℝ)..(s0 / 2 / Real.cos θ), ρ * cd ρ) +
         (∫ θ in (0:ℝ)..Real.arctan (s1 / s0),
            ∫ ρ in (0:ℝ)..(s1 / 2 / Real.cos θ), ρ * cd ρ))))
    | .gaussian w =>
      .ok (some ((∫ ρ in Set.Ioi (0:ℝ), ρ * w ρ * cd ρ) * (2 * Real.pi)))
    | .other => .error .nameError

/-- The integrand handed by `total_number` to the integration engine:
`lambda rho: rho * self.column_density(rho * u.km).value` without the
leading `rho` factor (the engine embeds it).  When scipy is absent the
engine returns before evaluating the integrand, so the `none` case is
unreachable; it is given the junk value 0. -/
noncomputable def Haser.column_density_fn (scipy : Option SciPy)
    (m : HaserState) (rho : ℝ) : ℝ :=
  match scipy with
  | none => 0
  | some s => Haser.column_density_val s m rho

/-- The closed-form part of `Haser.total_number` for a bare radius `rho`
(reached for scalar arguments and for `CircularAperture`): `x = rho/parent`,
`y = rho/daughter` (0 when the daughter is absent), then the three-way
branch of the source.  Each branch combines `_K1` and `_iK0` results
arithmetically, so a `None` (scipy absent) raises a `TypeError`. -/
noncomputable def Haser.total_number_r (scipy : Option SciPy)
    (m : HaserState) (rho : ℝ) : Except PyError ℝ :=
  let x := rho / m.parent
  let y := m.daughter.elim 0 fun d => rho / d
  if m.daughter = none ∨ m.daughter = some 0 then
    match Haser.K1fn scipy x, Haser.iK0 scipy x with
    | some k, some ik =>
      .ok (m.Q * m.parent / m.v * (1 + x * (k + Real.pi / 2 - ik)))
    | _, _ => .error .typeError
  else if m.parent = 0 then
    match Haser.K1fn scipy y, Haser.iK0 scipy y with
    | some k, some ik =>
      .ok (m.Q * m.daughter.getD 0 / m.v * (1 + y * (k + Real.pi / 2 - ik)))
    | _, _ => .error .typeError
  else
    let d := m.daughter.getD 0
    match Haser.iK0 scipy y, Haser.iK0 scipy x,
        Haser.K1fn scipy y, Haser.K1fn scipy x with
    | some iky, some ikx, some ky, some kx =>
      .ok (m.Q * rho / m.v * d / (m.parent - d) *
        (iky - ikx + x⁻¹ - y⁻¹ + ky - kx))
    | _, _, _, _ => .error .typeError

/-- Value of `Haser.total_number_r` when scipy is available. -/
noncomputable def Haser.total_number_val (s : SciPy) (m : HaserState)
    (rho : ℝ) : ℝ :=
  let x := rho / m.parent
  let y := m.daughter.elim 0 fun d => rho / d
  if m.daughter = none ∨ m.daughter = some 0 then
    m.Q * m.parent / m.v * (1 + x * (s.k1 x + Real.pi / 2 - (s.iti0k0 x).2))
  else if m.parent = 0 then
    m.Q * m.daughter.getD 0 / m.v *
      (1 + y * (s.k1 y + Real.pi / 2 - (s.iti0k0 y).2))
  else
    let d := m.daughter.getD 0
    m.Q * rho / m.v * d / (m.parent - d) *
      ((s.iti0k0 y).2 - (s.iti0k0 x).2 + x⁻¹ - y⁻¹ + s.k1 y - s.k1 x)

lemma Haser.total_number_r_some (s : SciPy) (m : HaserState) (rho : ℝ) :
    Haser.total_number_r (some s) m rho =
      .ok (Haser.total_number_val s m rho) := by
  unfold Haser.total_number_r Haser.total_number_val Haser.iK0 Haser.K1fn
  simp only [Option.map_some]
  split
  · rfl
  · split <;> rfl

/-- `Haser.total_number(aper, eph)`: dispatch on the aperture kind.
Rectangular and Gaussian apertures delegate to the integration engine with
`column_density` as integrand; an annular aperture is the difference of the
bare-radius closed form at the outer and inner radii (outer evaluated
first); a circular aperture or a bare scalar radius uses the closed form;
any other `Aperture` subclass reaches
`raise NotImplemented("Integration of ... is not implemented")`, and since
`NotImplemented` is not callable this raises a `TypeError`. -/
noncomputable def Haser.total_number (scipy : Option SciPy) (m : HaserState)
    (aper : ApertureArg) : Except PyError (Option ℝ) :=
  match aper with
  | .shaped (.rectangular s0 s1) =>
    GasComa.integrate_column_density scipy (Haser.column_density_fn scipy m)
      (.rectangular s0 s1)
  | .shaped (.gaussian w) =>
    GasComa.integrate_column_density scipy (Haser.column_density_fn scipy m)
      (.gaussian w)
  | .shaped (.annular r1 r2) =>
    match Haser.total_number_r scipy m r2, Haser.total_number_r scipy m r1 with
    | .ok n2, .ok n1 => .ok (some (n2 - n1))
    | .error e, _ => .error e
    | _, .error e => .error e
  | .shaped (.circular R) => (Haser.total_number_r scipy m R).map some
  | .shaped .other => .error .typeError
  | .radius rho => (Haser.total_number_r scipy m rho).map some

/-- Claim C3: with scipy available, `total_number` on a circular aperture
agrees with the bare-radius path, and the closed form is:
`Q*parent/v * (1 + x*(K1 x + pi/2 - I x))` when the daughter is absent or
zero; `Q*daughter/v * (1 + y*(K1 y + pi/2 - I y))` when (the daughter is
nonzero and) the parent is zero (a parent can never be absent after
`Haser.__init__`); and
`Q*rho/v * (daughter/(parent-daughter)) * (I y - I x + 1/x - 1/y + K1 y -
K1 x)` when both are present and nonzero, with `x = rho/parent` and
`y = rho/daughter`. -/
theorem haser_total_number_circular_spec (s : SciPy) (m : HaserState)
    (rho : ℝ) (hrho : 0 < rho) :
    Haser.total_number (some s) m (.shaped (.circular rho)) =
      Haser.total_number (some s) m (.radius rho) ∧
    (m.daughter = none ∨ m.daughter = some 0 →
      Haser.total_number (some s) m (.radius rho) =
        .ok (some (m.Q * m.parent / m.v *
          (1 + rho / m.parent * (s.k1 (rho / m.parent) + Real.pi / 2 -
            (s.iti0k0 (rho / m.parent)).2))))) ∧
    (∀ d : ℝ, m.daughter = some d → d ≠ 0 → m.parent = 0 →
      Haser.total_number (some s) m (.radius rho) =
        .ok (some (m.Q * d / m.v *
          (1 + rho / d * (s.k1 (rho / d) + Real.pi / 2 -
            (s.iti0k0 (rho / d)).2))))) ∧
    (∀ d : ℝ, m.daughter = some d → d ≠ 0 → m.parent ≠ 0 →
      Haser.total_number (some s) m (.radius rho) =
        .ok (some (m.Q * rho / m.v * (d / (m.parent - d)) *
          ((s.iti0k0 (rho / d)).2 - (s.iti0k0 (rho / m.parent)).2 +
            1 / (rho / m.parent) - 1 / (rho / d) +
            s.k1 (rho / d) - s.k1 (rho / m.parent))))) := by
  refine ⟨rfl, fun hd => ?_, fun d hd hdz hp => ?_, fun d hd hdz hp => ?_⟩
  · show (Haser.total_number_r (some s) m rho).map some = _
    rw [Haser.total_number_r_some]
    simp only [Except.map, Except.ok.injEq, Option.some.injEq]
    unfold Haser.total_number_val
    rw [if_pos hd]
  · show (Haser.total_number_r (some s) m rho).map some = _
    rw [Haser.total_number_r_some]
    simp only [Except.map, Except.ok.injEq, Option.some.injEq]
    unfold Haser.total_number_val
    rw [if_neg (by simp [hd, hdz]), if_pos hp]
    simp [hd]
  · show (Haser.total_number_r (some s) m rho).map some = _
    rw [Haser.total_number_r_some]
    simp only [Except.map, Except.ok.injEq, Option.some.injEq]
    unfold Haser.total_number_val
    rw [if_neg (by simp [hd, hdz]), if_neg hp]
    simp only [hd, Option.getD_some, Option.elim_some]
    rw [one_div, one_div]
    ring

/-- Witness for C3 at `Q = v = 1`, `parent = 2`, no daughter, `rho = 1`. -/
theorem haser_total_number_circular_spec_inst :
    Haser.total_number (some trivSciPy) ⟨1, 1, 2, none⟩ (.radius 1) =
      .ok (some ((1 : ℝ) * 2 / 1 *
        (1 + 1 / 2 * (trivSciPy.k1 (1 / 2) + Real.pi / 2 -
          (trivSciPy.iti0k0 (1 / 2)).2)))) :=
  (haser_total_number_circular_spec trivSciPy ⟨1, 1, 2, none⟩ 1
    (by norm_num)).2.1 (Or.inl rfl)

/-- Claim C5: with scipy available, `total_number` on an annular aperture
`(r1, r2)` with `r1 ≤ r2` equals `total_number` of the circular aperture of
radius `r2` minus `total_number` of the circular aperture of radius `r1`. -/
theorem haser_total_number_annular_spec (s : SciPy) (m : HaserState)
    (r1 r2 : ℝ) (h : r1 ≤ r2) :
    ∃ n1 n2 : ℝ,
      Haser.total_number (some s) m (.shaped (.circular r1)) = .ok (some n1) ∧
      Haser.total_number (some s) m (.shaped (.circular r2)) = .ok (some n2) ∧
      Haser.total_number (some s) m (.shaped (.annular r1 r2)) =
        .ok (some (n2 - n1)) := by
  refine ⟨Haser.total_number_val s m r1, Haser.total_number_val s m r2,
    ?_, ?_, ?_⟩
  · show (Haser.total_number_r (some s) m r1).map some = _
    rw [Haser.total_number_r_some]
    rfl
  · show (Haser.total_number_r (some s) m r2).map some = _
    rw [Haser.total_number_r_some]
    rfl
  · show (match Haser.total_number_r (some s) m r2,
        Haser.total_number_r (some s) m r1 with
      | .ok n2, .ok n1 => Except.ok (some (n2 - n1))
      | .error e, _ => .error e
      | _, .error e => .error e) = _
    rw [Haser.total_number_r_some, Haser.total_number_r_some]

/-- Witness for C5 at `Q = v = 1`, `parent = 2`, no daughter, annulus
`(1, 2)`. -/
theorem haser_total_number_annular_spec_inst :
    ∃ n1 n2 : ℝ,
      Haser.total_number (some trivSciPy) ⟨1, 1, 2, none⟩
          (.shaped (.circular 1)) = .ok (some n1) ∧
      Haser.total_number (some trivSciPy) ⟨1, 1, 2, none⟩
          (.shaped (.circular 2)) = .ok (some n2) ∧
      Haser.total_number (some trivSciPy) ⟨1, 1, 2, none⟩
          (.shaped (.annular 1 2)) = .ok (some (n2 - n1)) :=
  haser_total_number_annular_spec trivSciPy ⟨1, 1, 2, none⟩ 1 2 (by norm_num)

/-- Claim C10: when the parent lengthscale is present but exactly zero and
the daughter lengthscale is nonzero, the intermediate `x = rho / parent` is
a division by zero (here guarded by Lean's total division, `rho / 0 = 0`;
in the source numpy evaluates it to `inf` with a runtime warning before the
branch is selected), yet both `column_density` and `total_number` select
the parent-zero branch, whose value depends only on `y = rho / daughter`. -/
theorem haser_parent_zero_uses_daughter_only (s : SciPy) (m : HaserState)
    (rho d : ℝ) (hd : m.daughter = some d) (hdz : d ≠ 0)
    (hp : m.parent = 0) :
    Haser.column_density (some s) m rho =
      .ok (m.Q / (2 * Real.pi * rho * m.v) *
        (Real.pi / 2 - (s.iti0k0 (rho / d)).2)) ∧
    Haser.total_number (some s) m (.radius rho) =
      .ok (some (m.Q * d / m.v *
        (1 + rho / d * (s.k1 (rho / d) + Real.pi / 2 -
          (s.iti0k0 (rho / d)).2)))) := by
  constructor
  · rw [Haser.column_density_some]
    unfold Haser.column_density_val
    rw [if_neg (by simp [hd, hdz]), if_pos hp]
    simp only [hd, Option.elim_some, Except.ok.injEq]
    ring
  · show (Haser.total_number_r (some s) m rho).map some = _
    rw [Haser.total_number_r_some]
    simp only [Except.map, Except.ok.injEq, Option.some.injEq]
    unfold Haser.total_number_val
    rw [if_neg (by simp [hd, hdz]), if_pos hp]
    simp [hd]

/-- Witness for C10 at `Q = v = 1`, `parent = 0`, `daughter = 1`,
`rho = 1`. -/
theorem haser_parent_zero_uses_daughter_only_inst :
    Haser.column_density (some trivSciPy) ⟨1, 1, 0, some 1⟩ 1 =
      .ok ((1 : ℝ) / (2 * Real.pi * 1 * 1) *
        (Real.pi / 2 - (trivSciPy.iti0k0 (1 / 1)).2)) ∧
    Haser.total_number (some trivSciPy) ⟨1, 1, 0, some 1⟩ (.radius 1) =
      .ok (some ((1 : ℝ) * 1 / 1 *
        (1 + 1 / 1 * (trivSciPy.k1 (1 / 1) + Real.pi / 2 -
          (trivSciPy.iti0k0 (1 / 1)).2)))) :=
  haser_parent_zero_uses_daughter_only trivSciPy ⟨1, 1, 0, some 1⟩ 1 1 rfl
    one_ne_zero rfl

/-- Claim C6 (code bug): when scipy is absent, `_iK0` and `_K1` warn and
return `None`, and the integration engine warns and returns `None` (soft
degrade); but `column_density` and the closed-form `total_number` paths then
combine that `None` arithmetically (`np.pi / 2 - None`, `None + np.pi / 2`),
which raises a `TypeError` — a hard failure, not a detectable no-value
result. -/
theorem haser_scipy_missing_behavior :
    (∀ x : ℝ, Haser.iK0 none x = none) ∧
    (∀ x : ℝ, Haser.K1fn none x = none) ∧
    (∀ (m : HaserState) (rho : ℝ),
      Haser.column_density none m rho = .error .typeError) ∧
    (∀ (m : HaserState) (rho : ℝ),
      Haser.total_number none m (.radius rho) = .error .typeError) ∧
    (∀ (cd : ℝ → ℝ) (aper : Aperture),
      GasComa.integrate_column_density none cd aper = .ok none) := by
  refine ⟨fun x => rfl, fun x => rfl, fun m rho => ?_, fun m rho => ?_,
    fun cd aper => rfl⟩
  · unfold Haser.column_density
    simp only [Haser.iK0, Option.map_none]
    split
    · rfl
    · split
      · rfl
      · split <;> rfl
  · show (Haser.total_number_r none m rho).map some = _
    unfold Haser.total_number_r
    simp only [Haser.iK0, Haser.K1fn, Option.map_none]
    split
    · rfl
    · split <;> rfl

/-- Claim C7 counterexample: constructing a Haser model with
`parent = daughter = 1 m` succeeds (`Haser.__init__` validates only types
and unit dimensions), and `volume_density` then evaluates the two-species
formula with its zero denominator instead of raising — under Lean's total
division the degenerate product is `1/0 * (exp(-1) - exp(-1)) = 0`; numpy
produces `inf * 0 = nan` with a runtime warning, likewise without raising. -/
theorem haser_accepts_equal_lengthscales :
    Haser.init ⟨1, Dim.perTime⟩ ⟨1, Dim.speed⟩ ⟨1, Dim.lengthDim⟩
        (some ⟨1, Dim.lengthDim⟩) = .ok ⟨1, 1, 1, some 1⟩ ∧
    Haser.volume_density ⟨1, 1, 1, some 1⟩ 1 = 0 := by
  constructor
  · rfl
  · unfold Haser.volume_density
    rw [if_neg (by simp)]
    simp

/-- Claim C7 amended: supplying a parent lengthscale exactly equal to the
daughter lengthscale is NOT rejected: construction succeeds for any such
pair, and `volume_density` evaluates the two-species formula with
denominator `parent - daughter = 0` (NaN in the source) rather than raising
a validation error. -/
theorem haser_equal_lengthscales_not_validated (Qv vv pv r : ℝ)
    (hp : pv ≠ 0) :
    Haser.init ⟨Qv, Dim.perTime⟩ ⟨vv, Dim.speed⟩ ⟨pv, Dim.lengthDim⟩
        (some ⟨pv, Dim.lengthDim⟩) = .ok ⟨Qv, vv, pv, some pv⟩ ∧
    Haser.volume_density ⟨Qv, vv, pv, some pv⟩ r =
      Qv / 4 / Real.pi / r ^ 2 / vv *
        (pv / (pv - pv) * (Real.exp (-r / pv) - Real.exp (-r / pv))) := by
  constructor
  · rfl
  · unfold Haser.volume_density
    rw [if_neg (by simp [hp])]
    simp

/-- Witness for the amended C7 at `Q = v = parent = daughter = r = 1`. -/
theorem haser_equal_lengthscales_not_validated_inst :
    Haser.init ⟨1, Dim.perTime⟩ ⟨1, Dim.speed⟩ ⟨1, Dim.lengthDim⟩
        (some ⟨1, Dim.lengthDim⟩) = .ok ⟨1, 1, 1, some 1⟩ ∧
    Haser.volume_density ⟨1, 1, 1, some 1⟩ 1 =
      (1 : ℝ) / 4 / Real.pi / 1 ^ 2 / 1 *
        (1 / (1 - 1) * (Real.exp (-1 / 1) - Real.exp (-1 / 1))) :=
  haser_equal_lengthscales_not_validated 1 1 1 1 one_ne_zero

/-- Claim C8 (code bug): `total_number` on any `Aperture` subclass other
than circular, annular, rectangular or Gaussian never returns a value — but
the error it raises is a `TypeError` (the source executes
`raise NotImplemented("...")`, and the `NotImplemented` singleton is not
callable), not the intended `NotImplementedError` carrying the
"not implemented" message. -/
theorem haser_total_number_unknown_aperture (scipy : Option SciPy)
    (m : HaserState) :
    Haser.total_number scipy m (.shaped .other) = .error .typeError := rfl

/-- Claim C9: `GasComa.__init__` (hence also `Haser.__init__`) fails with an
`AssertionError` when the production rate is not dimensionally inverse time
or amount per time, or when the outflow speed is not length per time; when
both dimensions are valid it stores exactly the supplied magnitudes, never a
substituted default. -/
theorem gascoma_init_validation (Q v : Quantity) :
    (¬(Q.dim = Dim.perTime ∨ Q.dim = Dim.molPerTime) →
      GasComa.init Q v = .error .assertionError) ∧
    (v.dim ≠ Dim.speed → GasComa.init Q v = .error .assertionError) ∧
    ((Q.dim = Dim.perTime ∨ Q.dim = Dim.molPerTime) → v.dim = Dim.speed →
      GasComa.init Q v = .ok ⟨Q.value, v.value⟩) ∧
    (∀ (e : PyError) (parent : Quantity) (daughter : Option Quantity),
      GasComa.init Q v = .error e →
      Haser.init Q v parent daughter = .error e) := by
  refine ⟨fun hq => ?_, fun hv => ?_, fun hq hv => ?_, fun e p dtr h => ?_⟩
  · unfold GasComa.init
    rw [if_neg hq]
  · unfold GasComa.init
    rw [if_neg hv, ite_self]
  · unfold GasComa.init
    rw [if_pos hq, if_pos hv]
  · unfold Haser.init
    rw [h]

/-- Witness for C9: a production rate carrying a length dimension is
rejected. -/
theorem gascoma_init_validation_inst :
    GasComa.init ⟨5, Dim.lengthDim⟩ ⟨1, Dim.speed⟩ = .error .assertionError :=
  (gascoma_init_validation ⟨5, Dim.lengthDim⟩ ⟨1, Dim.speed⟩).1 (by decide)

/-- A constant unit column density, used to exercise the rectangular
decomposition: integrating it over a region returns the region's area. -/
def unitColumnDensity : ℝ → ℝ := fun _ => 1

lemma arctan_nonneg_of_nonneg {x : ℝ} (hx : 0 ≤ x) : 0 ≤ Real.arctan x := by
  rw [← Real.arctan_zero]
  exact Real.arctan_strictMono.monotone hx

/-- Value of one polar sector integral of the unit column density: for
`0 ≤ T < pi/2`, `∫_0^T ∫_0^(c/2/cos θ) ρ dρ dθ = c²/8 · tan T`. -/
lemma rect_sector_integral (c T : ℝ) (h0 : 0 ≤ T) (hT : T < Real.pi / 2) :
    (∫ θ in (0:ℝ)..T,
      ∫ ρ in (0:ℝ)..(c / 2 / Real.cos θ), ρ * unitColumnDensity ρ) =
      c ^ 2 / 8 * Real.tan T := by
  have hcos : ∀ θ ∈ Set.uIcc (0:ℝ) T, Real.cos θ ≠ 0 := by
    intro θ hθ
    rw [Set.uIcc_of_le h0] at hθ
    have hl : -(Real.pi / 2) < θ :=
      lt_of_lt_of_le (neg_lt_zero.mpr Real.pi_div_two_pos) hθ.1
    exact (Real.cos_pos_of_mem_Ioo ⟨hl, lt_of_le_of_lt hθ.2 hT⟩).ne'
  have hinner : Set.EqOn
      (fun θ : ℝ =>
        ∫ ρ in (0:ℝ)..(c / 2 / Real.cos θ), ρ * unitColumnDensity ρ)
      (fun θ : ℝ => c ^ 2 / 8 * (1 / Real.cos θ ^ 2)) (Set.uIcc 0 T) := by
    intro θ _
    simp only [unitColumnDensity, mul_one, integral_id]
    ring
  rw [intervalIntegral.integral_congr hinner]
  have hderiv : ∀ θ ∈ Set.uIcc (0:ℝ) T,
      HasDerivAt (fun t : ℝ => c ^ 2 / 8 * Real.tan t)
        (c ^ 2 / 8 * (1 / Real.cos θ ^ 2)) θ :=
    fun θ hθ => (Real.hasDerivAt_tan (hcos θ hθ)).const_mul (c ^ 2 / 8)
  have hint : IntervalIntegrable
      (fun θ : ℝ => c ^ 2 / 8 * (1 / Real.cos θ ^ 2)) volume 0 T := by
    apply ContinuousOn.intervalIntegrable
    apply ContinuousOn.mul continuousOn_const
    apply ContinuousOn.div continuousOn_const
    · exact Real.continuous_cos.continuousOn.pow 2
    · intro θ hθ
      exact pow_ne_zero 2 (hcos θ hθ)
  rw [intervalIntegral.integral_eq_sub_of_hasDerivAt hderiv hint]
  simp

lemma integrate_rect_eq (s : SciPy) (cd : ℝ → ℝ) (s0 s1 : ℝ) :
    GasComa.integrate_column_density (some s) cd (.rectangular s0 s1) =
      .ok (some (4 *
        ((∫ θ in (0:ℝ)..Real.arctan (s0 / s1),
            ∫ ρ in (0:ℝ)..(s0 / 2 / Real.cos θ), ρ * cd ρ) +
         (∫ θ in (0:ℝ)..Real.arctan (s1 / s0),
            ∫ ρ in (0:ℝ)..(s1 / 2 / Real.cos θ), ρ * cd ρ)))) := rfl

/-- Modelled from the spec (the claim's decomposition): sector 1 ranges over
angles `[0, atan(s0/s1)]` with radial bound `s1/(2 cos θ)`, sector 2 over
`[0, atan(s1/s0)]` with radial bound `s0/(2 cos θ)`, and the total is
`4 (sector1 + sector2)`.  This pairing of angle limit and radial bound is
the one that tiles the quarter rectangle. -/
noncomputable def rectangle_sectors_spec (cd : ℝ → ℝ) (s0 s1 : ℝ) : ℝ :=
  4 * ((∫ θ in (0:ℝ)..Real.arctan (s0 / s1),
          ∫ ρ in (0:ℝ)..(s1 / 2 / Real.cos θ), ρ * cd ρ) +
       (∫ θ in (0:ℝ)..Real.arctan (s1 / s0),
          ∫ ρ in (0:ℝ)..(s0 / 2 / Real.cos θ), ρ * cd ρ))

/-- Claim C4 (code bug): on the rectangle of side lengths `(2, 1)` with the
constant unit column density, the engine's rectangular path — which pairs
the angle limit `atan(s0/s1)` with the radial bound `s0/(2 cos θ)` — yields
`17/4`, whereas the claim's decomposition (angle limit `atan(a/b)` paired
with radial bound `b/(2 cos θ)`) yields the rectangle's area `2 · 1`, as the
source's own comment (`N1 + N2 constitute 1/4th of the rectangle`) and the
quarter-rectangle symmetry require.  The two decompositions disagree
whenever `s0 ≠ s1`. -/
theorem rectangular_decomposition_bug :
    GasComa.integrate_column_density (some trivSciPy) unitColumnDensity
        (.rectangular 2 1) = .ok (some (17 / 4)) ∧
    rectangle_sectors_spec unitColumnDensity 2 1 = 2 * 1 ∧
    (2 : ℝ) * 1 < 17 / 4 := by
  have h21 : ((2:ℝ) / 1) = 2 := by norm_num
  have hs1 := rect_sector_integral 2 (Real.arctan 2)
    (arctan_nonneg_of_nonneg (by norm_num)) (Real.arctan_lt_pi_div_two 2)
  have hs2 := rect_sector_integral 1 (Real.arctan (1 / 2))
    (arctan_nonneg_of_nonneg (by norm_num)) (Real.arctan_lt_pi_div_two _)
  have hs3 := rect_sector_integral 1 (Real.arctan 2)
    (arctan_nonneg_of_nonneg (by norm_num)) (Real.arctan_lt_pi_div_two 2)
  have hs4 := rect_sector_integral 2 (Real.arctan (1 / 2))
    (arctan_nonneg_of_nonneg (by norm_num)) (Real.arctan_lt_pi_div_two _)
  rw [Real.tan_arctan] at hs1 hs2 hs3 hs4
  refine ⟨?_, ?_, by norm_num⟩
  · rw [integrate_rect_eq, h21, hs1, hs2]
    simp only [Except.ok.injEq, Option.some.injEq]
    norm_num
  · unfold rectangle_sectors_spec
    rw [h21, hs3, hs4]
    norm_num
